import Mathlib

/-!
Verification development for the FVM execution pipeline and its conformance
harness. Definitions are shallow embeddings of the Rust sources
(`fvm/src/lib.rs`, `testing/conformance/tests/runner.rs`,
`testing/conformance/tests/test_utils.rs`); components whose implementation
is not part of this tree (the executor, call manager, gas tracker and state
tree internals) are modelled from the specification, as marked on each
definition.
-/

/-- A content identifier: version, codec, and the wrapped multihash
(hash-function code, digest size, digest bytes), flattened.
Mirrors `cid::Cid` as used by `fvm/src/lib.rs`. -/
structure Cid where
  version : Nat
  codec : Nat
  hash_code : Nat
  hash_size : Nat
  hash_digest : List Nat
deriving DecidableEq

/-- `Cid::new_v1(codec, mh)` from the `cid` crate: a version-1 CID. -/
def Cid.new_v1 (codec : Nat) (hash_code hash_size : Nat) (digest : List Nat) : Cid :=
  ⟨1, codec, hash_code, hash_size, digest⟩

/-- The DAG-CBOR multicodec code (`fvm_shared::encoding::DAG_CBOR`). -/
def DAG_CBOR : Nat := 0x71

/-- The multihash code of Blake2b-256 (`multihash::Code::Blake2b256`). -/
def BLAKE2B_256 : Nat := 0xb220

/-- The CBOR encoding of the empty array, `to_vec::<[(); 0]>(&[])` in
`fvm/src/lib.rs`: the single byte 0x80 (major type 4, length 0). -/
def EMPTY_ARR_BYTES : List Nat := [0x80]

/-- `EMPTY_ARR_CID` from `fvm/src/lib.rs`: the CIDv1 with the DAG-CBOR codec
over the Blake2b-256 digest of the CBOR encoding of the empty array. The
Blake2b-256 compression itself lives in the external `multihash` crate, so it
is taken as a parameter `hash`. -/
def EMPTY_ARR_CID (hash : List Nat → List Nat) : Cid :=
  Cid.new_v1 DAG_CBOR BLAKE2B_256 32 (hash EMPTY_ARR_BYTES)

/-- One forcing step of a `lazy_static` cell holding `EMPTY_ARR_CID`: if the
cell is uninitialized, run the initializer once and cache the value; otherwise
return the cached value. The boolean records whether this read ran the
initializer. -/
def lazy_force (hash : List Nat → List Nat) :
    Option Cid → Cid × Option Cid × Bool
  | none =>
    let v := EMPTY_ARR_CID hash
    (v, some v, true)
  | some v => (v, some v, false)

/-- Perform `n` successive reads of the lazy cell, returning the observed
values paired with whether that read ran the initializer. -/
def lazy_reads (hash : List Nat → List Nat) :
    Nat → Option Cid → List (Cid × Bool)
  | 0, _ => []
  | n + 1, cell =>
    let r := lazy_force hash cell
    (r.1, r.2.2) :: lazy_reads hash n r.2.1

/-- Number of initializer runs in a read trace. -/
def init_count (trace : List (Cid × Bool)) : Nat :=
  (trace.filter (fun p => p.2)).length

/-- `Config` from `fvm/src/lib.rs`. -/
structure Config where
  max_call_depth : Nat
  initial_pages : Nat
  max_pages : Nat
  debug : Bool
deriving DecidableEq

/-- `impl Default for Config` from `fvm/src/lib.rs`. -/
def Config.default : Config :=
  { initial_pages := 0
    max_pages := 1024
    max_call_depth := 4096
    debug := false }

/-- Address protocols (`fvm_shared::address::Protocol`). -/
inductive Protocol where
  | ID
  | Secp256k1
  | Actor
  | BLS
deriving DecidableEq

/-- `SECP_SIG_LEN` from `fvm_shared::crypto::signature`: 65 bytes
(the comment in `runner.rs`: 65 bytes signature). -/
def SECP_SIG_LEN : Nat := 65

/-- The `raw_length` computation from `run_variant` in
`testing/conformance/tests/runner.rs` lines 200-204: start from the
serialized message length and, when the sender uses the Secp256k1 protocol,
add the signature overhead `SECP_SIG_LEN + 4` (65 bytes signature + 1 byte
type + 3 bytes of field info). -/
def raw_length (bytes_len : Nat) (sender_protocol : Protocol) : Nat :=
  if sender_protocol = Protocol.Secp256k1 then bytes_len + (SECP_SIG_LEN + 4)
  else bytes_len

/-- `fvm_shared::receipt::Receipt`: exit code, return bytes, gas used. -/
structure Receipt where
  exit_code : Nat
  return_data : List Nat
  gas_used : Nat
deriving DecidableEq

/-- One backtrace frame of an `ApplyRet` (source actor, exit code, message). -/
structure Frame where
  source : Nat
  code : Nat
  message : List Nat
deriving DecidableEq

/-- `fvm::executor::ApplyRet`: the message receipt plus a backtrace of
sub-call frames accumulated on failure. -/
structure ApplyRet where
  msg_receipt : Receipt
  backtrace : List Frame
deriving DecidableEq

/-- The errors `check_msg_result` can report, one per receipt field, each
carrying the message label and the expected/actual values, mirroring the
`anyhow!` messages in `testing/conformance/tests/test_utils.rs`. -/
inductive MsgCheckErr where
  | exit_code (label expected actual : Nat)
  | return_data (label : Nat) (expected actual : List Nat)
  | gas_used (label expected actual : Nat)
deriving DecidableEq

/-- `check_msg_result` from `testing/conformance/tests/test_utils.rs` lines
49-94: compare the expected receipt with the actual receipt of an `ApplyRet`,
reporting the first mismatch among exit code, return data, gas used, in that
order. -/
def check_msg_result (expected_rec : Receipt) (ret : ApplyRet) (label : Nat) :
    Except MsgCheckErr Unit :=
  let actual_rec := ret.msg_receipt
  if expected_rec.exit_code ≠ actual_rec.exit_code then
    .error (.exit_code label expected_rec.exit_code actual_rec.exit_code)
  else if expected_rec.return_data ≠ actual_rec.return_data then
    .error (.return_data label expected_rec.return_data actual_rec.return_data)
  else if expected_rec.gas_used ≠ actual_rec.gas_used then
    .error (.gas_used label expected_rec.gas_used actual_rec.gas_used)
  else
    .ok ()

/-- An actor's state-tree entry (`fvm::state_tree::ActorState`): balance,
call sequence number, code CID, head CID. -/
structure ActorState where
  balance : Nat
  sequence : Nat
  code : Cid
  head : Cid
deriving DecidableEq

/-- A content-addressed blockstore, abstracted at the granularity the
conformance harness needs: resolving a root CID either decodes to the
actor-state mapping of the state tree rooted there, or fails (missing or
corrupt data), as `StateTree::new_from_root` does. -/
def Store : Type := Cid → Option (List (Nat × ActorState))

/-- The errors `compare_state_roots` can report: failure to load either
tree, or the final wrong-post-root verdict carrying the expected and actual
root CIDs. -/
inductive CompareErr where
  | load_actual_failed
  | load_expected_failed
  | wrong_post_root (expected actual : Cid)
deriving DecidableEq

/-- `compare_state_roots` from `testing/conformance/tests/test_utils.rs`
lines 98-150: succeed exactly when the two root CIDs are equal; otherwise
load both trees (failing if either is unreadable), log a diagnostic diff
(pure logging, dropped here), and report a wrong-post-root error regardless
of the decoded contents. -/
def compare_state_roots (bs : Store) (root expected_root : Cid) :
    Except CompareErr Unit :=
  if root = expected_root then .ok ()
  else
    match bs root with
    | none => .error .load_actual_failed
    | some _actual =>
      match bs expected_root with
      | none => .error .load_expected_failed
      | some _expected => .error (.wrong_post_root expected_root root)

/-- Modelled from the spec: the Gas tracker of §4.5 (the `fvm::gas` module is
not part of this tree). A running counter starts at the message's gas limit
and is decremented by each charge; charges are non-negative (naturals). -/
structure GasTracker where
  gas_limit : Nat
  gas_counter : Nat
deriving DecidableEq

/-- Modelled from the spec: a fresh tracker for a message, counter = limit. -/
def GasTracker.new (limit : Nat) : GasTracker :=
  ⟨limit, limit⟩

/-- Modelled from the spec: apply one gas charge. If the counter covers the
amount, decrement it; otherwise clamp the counter to zero and signal
exhaustion (the boolean is `false` exactly when the charge exhausted gas). -/
def GasTracker.charge (t : GasTracker) (amount : Nat) : GasTracker × Bool :=
  if amount ≤ t.gas_counter then ({ t with gas_counter := t.gas_counter - amount }, true)
  else ({ t with gas_counter := 0 }, false)

/-- Modelled from the spec: total gas used = gas limit − remaining counter. -/
def GasTracker.gas_used (t : GasTracker) : Nat :=
  t.gas_limit - t.gas_counter

/-- Modelled from the spec: apply a sequence of charges in order. -/
def charge_seq (t : GasTracker) : List Nat → GasTracker
  | [] => t
  | a :: rest => charge_seq (t.charge a).1 rest

/-- Modelled from the spec: the State Tree of §3/§9 (the `fvm::state_tree`
module is not part of this tree), realized as the spec's journal design: a
committed base mapping (an association list of ID address to actor state)
plus a journal of pending writes keyed by address, newest first; a `none`
entry records a deletion. -/
structure StateTree where
  base : List (Nat × ActorState)
  journal : List (Nat × Option ActorState)
deriving DecidableEq

/-- Modelled from the spec: read an actor, the newest journal entry for the
address winning over the committed base. -/
def StateTree.get_actor (st : StateTree) (addr : Nat) : Option ActorState :=
  match st.journal.find? (fun e => e.1 == addr) with
  | some e => e.2
  | none =>
    match st.base.find? (fun e => e.1 == addr) with
    | some e => some e.2
    | none => none

/-- Modelled from the spec: record a write in the journal. -/
def StateTree.set_actor (st : StateTree) (addr : Nat) (s : ActorState) : StateTree :=
  ⟨st.base, (addr, some s) :: st.journal⟩

/-- Modelled from the spec: record a deletion in the journal. -/
def StateTree.delete_actor (st : StateTree) (addr : Nat) : StateTree :=
  ⟨st.base, (addr, none) :: st.journal⟩

/-- Modelled from the spec: the snapshot marker taken at call entry is the
current journal length (an arena-style version marker). -/
def StateTree.snapshot (st : StateTree) : Nat :=
  st.journal.length

/-- Modelled from the spec: revert to a snapshot by truncating the journal
back to the marked length, discarding every newer write wholesale. -/
def StateTree.revert_to (st : StateTree) (snap : Nat) : StateTree :=
  ⟨st.base, st.journal.drop (st.journal.length - snap)⟩

/-- Exit code 0: success (`ExitCode::Ok`). -/
def EXIT_OK : Nat := 0

/-- Modelled from the spec: the rejection exit code for a sender that does
not exist or is not valid for sending (`SysErrSenderInvalid`). -/
def SYS_ERR_SENDER_INVALID : Nat := 1

/-- Modelled from the spec: the rejection exit code for a nonce mismatch or
insufficient balance for fees (`SysErrSenderStateInvalid`). -/
def SYS_ERR_SENDER_STATE_INVALID : Nat := 2

/-- Modelled from the spec: the abort exit code for gas exhaustion
(`SysErrOutOfGas`). -/
def SYS_ERR_OUT_OF_GAS : Nat := 7

/-- Modelled from the spec: the abort exit code for exceeding the configured
maximum call depth (`SysErrForbidden` used for depth-exceeded). -/
def SYS_ERR_CALL_DEPTH_EXCEEDED : Nat := 8

/-- Modelled from the spec: the abort exit code for a value transfer with
insufficient balance (`SysErrInsufficientFunds`). -/
def SYS_ERR_INSUFFICIENT_FUNDS : Nat := 6

/-- Modelled from the spec: the observable actions of guest code, §4.3/§4.4
(the `fvm::call_manager` and `fvm::kernel` modules are not part of this
tree). Every effect of an invocation flows through the Kernel: state-tree
writes and deletions, gas charges, and an explicit abort (covering abort
codes, traps, and syscall-reported fatal conditions, which all surface as an
abort of the call). -/
inductive GuestStep where
  | set_actor (addr : Nat) (s : ActorState)
  | delete_actor (addr : Nat)
  | charge (amount : Nat)
  | abort (code : Nat)
deriving DecidableEq

/-- The outcome of an invocation: success with return bytes, or an abort
carrying an exit code. -/
inductive Outcome where
  | success (ret : List Nat)
  | abort (code : Nat)
deriving DecidableEq

/-- Modelled from the spec: run a guest body step by step against the state
tree and the shared gas counter. A charge that exhausts gas aborts
immediately with `SYS_ERR_OUT_OF_GAS` at exactly that operation; an explicit
abort stops with its code; otherwise the body runs to completion. -/
def run_guest (st : StateTree) (gas : GasTracker) :
    List GuestStep → StateTree × GasTracker × Outcome
  | [] => (st, gas, .success [])
  | step :: rest =>
    match step with
    | .set_actor a s => run_guest (st.set_actor a s) gas rest
    | .delete_actor a => run_guest (st.delete_actor a) gas rest
    | .charge n =>
      let c := gas.charge n
      if c.2 then run_guest st c.1 rest
      else (st, c.1, .abort SYS_ERR_OUT_OF_GAS)
    | .abort code => (st, gas, .abort code)

/-- Modelled from the spec: one `send` of the Call Manager, §4.3. Entry
increments the call depth and aborts with the depth-exceeded code when it
passes the configured maximum (without touching state); otherwise it takes a
snapshot of the state tree, runs the guest body, and on abort reverts every
state-tree mutation made since the snapshot while keeping the gas tracker as
charged and propagating the abort's exit code; on success the snapshot is
discarded and the mutations stay. -/
def call_send (max_depth depth : Nat) (st : StateTree) (gas : GasTracker)
    (body : List GuestStep) : StateTree × GasTracker × Outcome :=
  if max_depth < depth + 1 then (st, gas, .abort SYS_ERR_CALL_DEPTH_EXCEEDED)
  else
    let snap := st.snapshot
    let r := run_guest st gas body
    match r.2.2 with
    | .success ret => (r.1, r.2.1, .success ret)
    | .abort code => (r.1.revert_to snap, r.2.1, .abort code)

/-- An address: protocol class plus payload, reduced to the numeric ID the
core keys the State Tree by (`fvm_shared::address::Address`). -/
structure Address where
  protocol : Protocol
  id : Nat
deriving DecidableEq

/-- The message wire shape of §6 (`fvm_shared::message::Message`): sender,
receiver, method number, parameter bytes, value, gas limit, gas fee cap, gas
premium, sequence number. -/
structure Message where
  from_addr : Address
  to_addr : Address
  method : Nat
  params : List Nat
  value : Nat
  gas_limit : Nat
  gas_fee_cap : Nat
  gas_premium : Nat
  sequence : Nat
deriving DecidableEq

/-- Decode a protocol tag byte. -/
def protocol_of_tag : Nat → Option Protocol
  | 0 => some .ID
  | 1 => some .Secp256k1
  | 2 => some .Actor
  | 3 => some .BLS
  | _ => none

/-- Modelled from the spec: `Message::unmarshal_cbor`, the canonical binary
decoding of the message wire shape of §6 (the `fvm_shared` encoding lives
outside this tree). Decoding fails on a malformed encoding: too few fields
or an unknown protocol tag. -/
def unmarshal_cbor : List Nat → Option Message
  | fp :: fid :: tp :: tid :: method :: value :: gl :: fc :: gp :: seq :: params =>
    match protocol_of_tag fp, protocol_of_tag tp with
    | some p1, some p2 =>
      some ⟨⟨p1, fid⟩, ⟨p2, tid⟩, method, params, value, gl, fc, gp, seq⟩
    | _, _ => none
  | _ => none

/-- Modelled from the spec: the fixed per-message inclusion overhead of the
price list, §4.2 step 2 (a protocol parameter of the active price list). -/
def ON_CHAIN_MESSAGE_BASE : Nat := 38863

/-- Modelled from the spec: the per-byte inclusion charge of the price list,
§4.2 step 2 (a protocol parameter of the active price list). -/
def ON_CHAIN_MESSAGE_PER_BYTE : Nat := 36

/-- Modelled from the spec: the code CID installed for an auto-created
account actor (§4.3: lazily creating the target entry when transferring
value to a not-yet-instantiated account). -/
def ACCOUNT_ACTOR_CODE : Cid := Cid.new_v1 DAG_CBOR BLAKE2B_256 32 [1]

/-- Modelled from the spec: the head CID of a freshly created actor (the
empty state object). -/
def EMPTY_STATE_HEAD : Cid := Cid.new_v1 DAG_CBOR BLAKE2B_256 32 []

/-- The Machine's immutable construction context, §3/§4.1: configuration,
epoch, base fee, circulating supply, network version, initial state-tree
root, built-in-actor manifest CID. -/
structure MachineContext where
  config : Config
  epoch : Int
  base_fee : Nat
  circ_supply : Nat
  network_version : Nat
  initial_state_root : Cid
  builtin_actors : Cid
deriving DecidableEq

/-- Modelled from the spec: the Machine of §4.1 (the `fvm::machine` module is
not part of this tree): the immutable context plus the owned State Tree,
loaded from the store at construction. -/
structure Machine where
  context : MachineContext
  state_tree : StateTree
deriving DecidableEq

/-- Construction failures of §4.1. -/
inductive InitializationError where
  | state_root_unreadable
  | manifest_unresolvable
deriving DecidableEq

/-- Modelled from the spec: `Machine` construction, §4.1. Fails with an
`InitializationError` if the state-tree root cannot be loaded from the store
or the manifest CID cannot be resolved; otherwise the loaded mapping becomes
the committed base of a fresh State Tree with an empty journal. -/
def machine_new (ctx : MachineContext) (store : Store) :
    Except InitializationError Machine :=
  match store ctx.initial_state_root with
  | none => .error .state_root_unreadable
  | some tree =>
    match store ctx.builtin_actors with
    | none => .error .manifest_unresolvable
    | some _ => .ok ⟨ctx, ⟨tree, []⟩⟩

/-- Serialize a CID for content addressing (length-prefixed digest). -/
def encode_cid (c : Cid) : List Nat :=
  [c.version, c.codec, c.hash_code, c.hash_size, c.hash_digest.length] ++ c.hash_digest

/-- Serialize one actor entry for content addressing. -/
def encode_actor (e : Nat × ActorState) : List Nat :=
  [e.1, e.2.balance, e.2.sequence] ++ encode_cid e.2.code ++ encode_cid e.2.head

/-- The addresses mentioned by a state tree, journal first, deduplicated. -/
def tree_domain (st : StateTree) : List Nat :=
  ((st.journal.map Prod.fst) ++ (st.base.map Prod.fst)).dedup

/-- The actor-state mapping a state tree denotes, as a flat association
list over its domain (deletions dropped). -/
def flatten_tree (st : StateTree) : List (Nat × ActorState) :=
  (tree_domain st).filterMap (fun a => (st.get_actor a).map (fun s => (a, s)))

/-- Modelled from the spec: `flush`, §4.1/§3 — commit the State Tree and
return the new root CID, a pure function of the tree's contents. The
external Blake2b-256 primitive is stood in for by the serialized bytes
themselves, preserving the content-addressing property that identical bytes
give identical CIDs. -/
def state_root (st : StateTree) : Cid :=
  ⟨1, DAG_CBOR, BLAKE2B_256, 32,
    (flatten_tree st).foldr (fun e acc => encode_actor e ++ acc) []⟩

/-- Modelled from the spec: the Machine's `flush` operation. -/
def Machine.flush (m : Machine) : Cid :=
  state_root m.state_tree

/-- `ApplyKind` from `fvm::executor`: externally signed versus
system-generated messages. -/
inductive ApplyKind where
  | explicit
  | implicit
deriving DecidableEq

/-- Modelled from the spec: the guest body the Call Manager runs for a plain
value-transfer invocation, §4.3 — debit the sender, credit the receiver,
auto-creating the receiver's entry as a fresh account actor when absent. -/
def transfer_body (st : StateTree) (from_id to_id value : Nat) : List GuestStep :=
  match st.get_actor from_id with
  | none => [.abort SYS_ERR_SENDER_INVALID]
  | some fs =>
    if fs.balance < value then [.abort SYS_ERR_INSUFFICIENT_FUNDS]
    else
      match st.get_actor to_id with
      | some ts =>
        [.set_actor from_id { fs with balance := fs.balance - value },
         .set_actor to_id { ts with balance := ts.balance + value }]
      | none =>
        [.set_actor from_id { fs with balance := fs.balance - value },
         .set_actor to_id ⟨value, 0, ACCOUNT_ACTOR_CODE, EMPTY_STATE_HEAD⟩]

/-- A rejection receipt: the distinguished exit code, no return data, no gas
used, guest code never ran (§7). -/
def reject (code : Nat) : ApplyRet :=
  ⟨⟨code, [], 0⟩, []⟩

/-- Modelled from the spec: `execute_message`, §4.2 (the `fvm::executor`
module is not part of this tree). For an `Explicit` message: validate that
the sender exists, that the nonce matches, that the gas limit covers the
inclusion cost, and that the balance covers value plus prepaid fees — each
violation yields a non-fatal rejection receipt with no state change; then
increment the sender's sequence number, charge the inclusion cost to a fresh
gas tracker, and delegate to the Call Manager's `send`; the receipt reports
the final exit code, return data, and gas used. `Implicit` messages skip the
nonce/balance/fee logic. Per-message failures are always captured in the
returned receipt, never as an error. -/
def execute_message (m : Machine) (msg : Message) (kind : ApplyKind)
    (on_chain_size : Nat) : Machine × ApplyRet :=
  let st := m.state_tree
  let from_id := msg.from_addr.id
  let to_id := msg.to_addr.id
  match kind with
  | .implicit =>
    let gas := GasTracker.new msg.gas_limit
    let r := call_send m.context.config.max_call_depth 0 st gas
      (transfer_body st from_id to_id msg.value)
    match r.2.2 with
    | .success ret =>
      (⟨m.context, r.1⟩, ⟨⟨EXIT_OK, ret, r.2.1.gas_used⟩, []⟩)
    | .abort code =>
      (⟨m.context, r.1⟩, ⟨⟨code, [], r.2.1.gas_used⟩, [⟨from_id, code, []⟩]⟩)
  | .explicit =>
    let inclusion_cost := ON_CHAIN_MESSAGE_BASE + ON_CHAIN_MESSAGE_PER_BYTE * on_chain_size
    match st.get_actor from_id with
    | none => (m, reject SYS_ERR_SENDER_INVALID)
    | some sender =>
      if msg.sequence ≠ sender.sequence then
        (m, reject SYS_ERR_SENDER_STATE_INVALID)
      else if msg.gas_limit < inclusion_cost then
        (m, reject SYS_ERR_OUT_OF_GAS)
      else if sender.balance < msg.value + msg.gas_limit * msg.gas_fee_cap then
        (m, reject SYS_ERR_SENDER_STATE_INVALID)
      else
        let st1 := st.set_actor from_id { sender with sequence := sender.sequence + 1 }
        let gas := (GasTracker.new msg.gas_limit).charge inclusion_cost
        let r := call_send m.context.config.max_call_depth 0 st1 gas.1
          (transfer_body st1 from_id to_id msg.value)
        match r.2.2 with
        | .success ret =>
          (⟨m.context, r.1⟩, ⟨⟨EXIT_OK, ret, r.2.1.gas_used⟩, []⟩)
        | .abort code =>
          (⟨m.context, r.1⟩, ⟨⟨code, [], r.2.1.gas_used⟩, [⟨from_id, code, []⟩]⟩)

/-- Modelled from the spec: `DefaultExecutor`, §4.2 — a wrapper around an
optional Machine; the `none` state is the poisoned/already-consumed
executor. -/
structure DefaultExecutor where
  machine_state : Option Machine
deriving DecidableEq

/-- Modelled from the spec: `DefaultExecutor::new`, wrapping a live
Machine. -/
def DefaultExecutor.new (m : Machine) : DefaultExecutor :=
  ⟨some m⟩

/-- Modelled from the spec: `consume() -> Option<Machine>` — take the
Machine out, leaving the executor consumed; returns `none` when the
executor was already consumed (poisoned). -/
def DefaultExecutor.consume (e : DefaultExecutor) :
    Option Machine × DefaultExecutor :=
  (e.machine_state, ⟨none⟩)

/-- Modelled from the spec: one run of the Executor over a message sequence,
§4.2/§8 — each step applies `execute_message` to the current Machine,
recording the receipt, and the run ends by flushing the final Machine to a
root CID. Each message comes paired with its caller-supplied
`on_chain_size`. -/
inductive ExecutorRun : Machine → List (Message × Nat) → List Receipt → Cid → Prop where
  | nil : ∀ m, ExecutorRun m [] [] m.flush
  | cons : ∀ m msg rl m2 ret rest rs root,
      execute_message m msg .explicit rl = (m2, ret) →
      ExecutorRun m2 rest rs root →
      ExecutorRun m ((msg, rl) :: rest) (ret.msg_receipt :: rs) root

/-- The outcome of the per-variant message loop of `run_variant`
(`testing/conformance/tests/runner.rs` lines 196-215): a fatal
deserialization error at message `i` (the `?` aborting the whole run), a
per-message failure reported at message `i`, or completion with the final
Machine. -/
inductive VariantOutcome where
  | fatal (i : Nat)
  | failed (i : Nat)
  | completed (m : Machine)
deriving DecidableEq

/-- The message loop of `run_variant` from
`testing/conformance/tests/runner.rs` lines 196-215: for each raw message in
order, unmarshal it (a malformed encoding is fatal and stops the batch),
compute `raw_length` with the Secp256k1 adjustment, execute it, and compare
the returned receipt with the expected receipt — a mismatch stops the batch
as a failure, otherwise the loop continues with the next message on the
updated Machine. -/
def run_loop (m : Machine) (expected : List Receipt) (raws : List (List Nat))
    (i : Nat) : VariantOutcome :=
  match raws with
  | [] => .completed m
  | raw :: rest =>
    match unmarshal_cbor raw with
    | none => .fatal i
    | some msg =>
      let r := execute_message m msg .explicit
        (raw_length raw.length msg.from_addr.protocol)
      match check_msg_result (expected.getD i ⟨0, [], 0⟩) r.2 i with
      | .error _ => .failed i
      | .ok _ => run_loop r.1 expected rest (i + 1)

/-- A concrete root CID used by the closed witness instances below. -/
def cid_w : Cid := Cid.new_v1 DAG_CBOR BLAKE2B_256 32 [7]

/-- A concrete actor: balance 100, sequence 0. -/
def actor_w : ActorState := ⟨100, 0, ACCOUNT_ACTOR_CODE, EMPTY_STATE_HEAD⟩

/-- A concrete store resolving only `cid_w`, to a one-actor mapping. -/
def store_w : Store := fun c => if c = cid_w then some [(1, actor_w)] else none

/-- A concrete Machine context over `store_w`. -/
def ctx_w : MachineContext := ⟨Config.default, 0, 0, 0, 14, cid_w, cid_w⟩

/-- The Machine `machine_new ctx_w store_w` constructs. -/
def machine_w : Machine := ⟨ctx_w, ⟨[(1, actor_w)], []⟩⟩

/-- A concrete state tree with one committed actor and an empty journal. -/
def st_w : StateTree := ⟨[(1, actor_w)], []⟩

/-- A concrete gas tracker with limit 5. -/
def gas_w : GasTracker := GasTracker.new 5

/-- A concrete guest body that mutates state, charges gas, then aborts. -/
def body_w : List GuestStep := [.set_actor 2 actor_w, .charge 3, .abort 42]

/-- A concrete well-formed message from actor 1 (Secp256k1 sender) to
actor 2: value 0, gas limit 50000, nonce 0. -/
def msg_w : Message := ⟨⟨.Secp256k1, 1⟩, ⟨.ID, 2⟩, 0, [], 0, 50000, 0, 0, 0⟩

/-- `msg_w` with a mismatching nonce. -/
def msg_w2 : Message := { msg_w with sequence := 5 }

/-- The wire encoding of `msg_w` under `unmarshal_cbor`. -/
def raw_w : List Nat := [1, 1, 0, 2, 0, 0, 50000, 0, 0, 0]

/-- Claim C7: `Config::default()` yields exactly the defaults the spec
recognizes — max_call_depth 4096, initial_pages 0, max_pages 1024, and
debug off. -/
theorem config_default_spec :
    Config.default.max_call_depth = 4096 ∧ Config.default.initial_pages = 0
    ∧ Config.default.max_pages = 1024 ∧ Config.default.debug = false :=
  ⟨rfl, rfl, rfl, rfl⟩

/-- Claim C4: the `on_chain_size` computed by the runner equals the
serialized message length plus the fixed overhead `SECP_SIG_LEN + 4` when
the sender address uses the Secp256k1 protocol, and the unadjusted length
for every other sender protocol. -/
theorem raw_length_spec : ∀ (len : Nat) (p : Protocol),
    (p = Protocol.Secp256k1 → raw_length len p = len + SECP_SIG_LEN + 4)
    ∧ (p ≠ Protocol.Secp256k1 → raw_length len p = len) := by
  intro len p
  constructor <;> intro h <;> simp [raw_length, h, Nat.add_assoc]

/-- Witness for C4 at a concrete length and both protocol classes. -/
theorem raw_length_witness :
    raw_length 10 Protocol.Secp256k1 = 10 + SECP_SIG_LEN + 4
    ∧ raw_length 10 Protocol.BLS = 10 :=
  ⟨(raw_length_spec 10 Protocol.Secp256k1).1 rfl,
   (raw_length_spec 10 Protocol.BLS).2 (by decide)⟩

theorem lazy_reads_initialized (hash : List Nat → List Nat) (v : Cid) :
    ∀ n, lazy_reads hash n (some v) = List.replicate n (v, false) := by
  intro n
  induction n with
  | zero => rfl
  | succ k ih => simp [lazy_reads, lazy_force, List.replicate_succ, ih]

theorem init_count_replicate (v : Cid) (n : Nat) :
    init_count (List.replicate n (v, false)) = 0 := by
  induction n with
  | zero => rfl
  | succ k ih => simp [init_count, List.replicate_succ] at ih ⊢

/-- Claim C8: reading the lazily initialized `EMPTY_ARR_CID` cell any number
of times always yields the same fixed value — the CIDv1 with the DAG-CBOR
codec over the Blake2b-256 digest of the CBOR encoding of the empty array —
and the initializer runs at most once across the whole trace, never again
per call. -/
theorem empty_arr_cid_spec : ∀ (hash : List Nat → List Nat) (n : Nat),
    (lazy_reads hash n none).map Prod.fst = List.replicate n (EMPTY_ARR_CID hash)
    ∧ init_count (lazy_reads hash n none) ≤ 1
    ∧ EMPTY_ARR_CID hash = ⟨1, DAG_CBOR, BLAKE2B_256, 32, hash EMPTY_ARR_BYTES⟩ := by
  intro hash n
  refine ⟨?_, ?_, rfl⟩
  · cases n with
    | zero => simp [lazy_reads]
    | succ k =>
      simp [lazy_reads, lazy_force, lazy_reads_initialized,
        List.replicate_succ, List.map_replicate]
  · cases n with
    | zero => simp [lazy_reads, init_count]
    | succ k =>
      have h0 := init_count_replicate (EMPTY_ARR_CID hash) k
      simp only [init_count] at h0
      simp [lazy_reads, lazy_force, lazy_reads_initialized, init_count, h0]

/-- Claim C9: `check_msg_result` succeeds exactly when the expected and
actual receipts agree on exit code, return data, and gas used; on
disagreement it reports the first mismatching field in the fixed order exit
code, return data, gas used. -/
theorem check_msg_result_spec : ∀ (er : Receipt) (ret : ApplyRet) (label : Nat),
    (check_msg_result er ret label = .ok () ↔
      (er.exit_code = ret.msg_receipt.exit_code
        ∧ er.return_data = ret.msg_receipt.return_data
        ∧ er.gas_used = ret.msg_receipt.gas_used))
    ∧ (er.exit_code ≠ ret.msg_receipt.exit_code →
        check_msg_result er ret label =
          .error (.exit_code label er.exit_code ret.msg_receipt.exit_code))
    ∧ (er.exit_code = ret.msg_receipt.exit_code →
        er.return_data ≠ ret.msg_receipt.return_data →
        check_msg_result er ret label =
          .error (.return_data label er.return_data ret.msg_receipt.return_data))
    ∧ (er.exit_code = ret.msg_receipt.exit_code →
        er.return_data = ret.msg_receipt.return_data →
        er.gas_used ≠ ret.msg_receipt.gas_used →
        check_msg_result er ret label =
          .error (.gas_used label er.gas_used ret.msg_receipt.gas_used)) := by
  intro er ret label
  by_cases h1 : er.exit_code = ret.msg_receipt.exit_code <;>
    by_cases h2 : er.return_data = ret.msg_receipt.return_data <;>
      by_cases h3 : er.gas_used = ret.msg_receipt.gas_used <;>
        simp [check_msg_result, h1, h2, h3]

/-- Witness for C9: an exit-code mismatch at a concrete pair of receipts. -/
theorem check_msg_result_witness :
    check_msg_result ⟨0, [], 5⟩ ⟨⟨1, [], 5⟩, []⟩ 0 = .error (.exit_code 0 0 1) :=
  (check_msg_result_spec ⟨0, [], 5⟩ ⟨⟨1, [], 5⟩, []⟩ 0).2.1 (by decide)

/-- Claim C10: `compare_state_roots` succeeds exactly when the two root CIDs
are equal; whenever they differ it returns an error — even when the two
trees loaded from the store decode identically — so the verdict depends only
on CID equality, never on the store's contents. -/
theorem compare_state_roots_spec : ∀ (bs bs2 : Store) (root er : Cid),
    (compare_state_roots bs root er = .ok () ↔ root = er)
    ∧ (compare_state_roots bs root er = .ok ()
        ↔ compare_state_roots bs2 root er = .ok ()) := by
  intro bs bs2 root er
  have key : ∀ (b : Store), compare_state_roots b root er = .ok () ↔ root = er := by
    intro b
    by_cases h : root = er
    · simp [compare_state_roots, h]
    · rcases hbr : b root with _ | a
      · simp [compare_state_roots, if_neg h, hbr, h]
      · rcases hbe : b er with _ | e <;>
          simp [compare_state_roots, if_neg h, hbr, hbe, h]
  exact ⟨key bs, (key bs).trans (key bs2).symm⟩

theorem charge_counter_le (t : GasTracker) (a : Nat) :
    ((t.charge a).1).gas_counter ≤ t.gas_counter := by
  unfold GasTracker.charge
  split <;> simp

theorem charge_limit_eq (t : GasTracker) (a : Nat) :
    ((t.charge a).1).gas_limit = t.gas_limit := by
  unfold GasTracker.charge
  split <;> rfl

theorem charge_seq_counter_le : ∀ (cs : List Nat) (t : GasTracker),
    (charge_seq t cs).gas_counter ≤ t.gas_counter := by
  intro cs
  induction cs with
  | nil => intro t; exact Nat.le_refl _
  | cons a rest ih =>
    intro t
    exact Nat.le_trans (ih (t.charge a).1) (charge_counter_le t a)

theorem charge_seq_limit_eq : ∀ (cs : List Nat) (t : GasTracker),
    (charge_seq t cs).gas_limit = t.gas_limit := by
  intro cs
  induction cs with
  | nil => intro t; rfl
  | cons a rest ih =>
    intro t
    rw [charge_seq, ih, charge_limit_eq]

theorem charge_seq_append (xs ys : List Nat) : ∀ (t : GasTracker),
    charge_seq t (xs ++ ys) = charge_seq (charge_seq t xs) ys := by
  induction xs with
  | nil => intro t; rfl
  | cons a rest ih => intro t; simp [charge_seq, ih]

/-- Claim C3: the gas counter starts at the message's gas limit and is only
decremented by (non-negative) charges; a charge exceeding the counter clamps
it to zero and signals exhaustion; total gas used (limit minus remaining
counter) never exceeds the limit and is never retroactively reduced as
further charges accumulate. -/
theorem gas_tracker_spec :
    ∀ (limit : Nat) (charges more : List Nat) (t : GasTracker) (a : Nat),
    (GasTracker.new limit).gas_counter = limit
    ∧ (charge_seq (GasTracker.new limit) charges).gas_used ≤ limit
    ∧ (charge_seq (GasTracker.new limit) charges).gas_used ≤
        (charge_seq (GasTracker.new limit) (charges ++ more)).gas_used
    ∧ (t.gas_counter < a → t.charge a = (⟨t.gas_limit, 0⟩, false)) := by
  intro limit charges more t a
  refine ⟨rfl, ?_, ?_, ?_⟩
  · have hl := charge_seq_limit_eq charges (GasTracker.new limit)
    unfold GasTracker.gas_used
    rw [hl]
    exact Nat.sub_le _ _
  · rw [charge_seq_append]
    unfold GasTracker.gas_used
    rw [charge_seq_limit_eq more, charge_seq_limit_eq charges]
    have h := charge_seq_counter_le more (charge_seq (GasTracker.new limit) charges)
    omega
  · intro h
    unfold GasTracker.charge
    rw [if_neg (by omega)]

/-- Witness for C3 at a concrete limit, charge sequence, and clamping
charge. -/
theorem gas_tracker_witness :
    (charge_seq (GasTracker.new 10) [3]).gas_used ≤
      (charge_seq (GasTracker.new 10) ([3] ++ [4, 9])).gas_used
    ∧ (⟨10, 2⟩ : GasTracker).charge 5 = (⟨10, 0⟩, false) :=
  ⟨(gas_tracker_spec 10 [3] [4, 9] ⟨10, 2⟩ 5).2.2.1,
   (gas_tracker_spec 10 [3] [4, 9] ⟨10, 2⟩ 5).2.2.2 (by decide)⟩

/-- Claim C6: `consume()` yields the Machine the first time it is called on
a live executor, leaves the executor poisoned, and yields nothing on a
poisoned executor — in particular on any call after the first. -/
theorem executor_consume_spec : ∀ (m : Machine) (e : DefaultExecutor),
    (DefaultExecutor.new m).consume = (some m, ⟨none⟩)
    ∧ (e.machine_state = none → e.consume = (none, ⟨none⟩))
    ∧ ((DefaultExecutor.new m).consume.2).consume = (none, ⟨none⟩) := by
  intro m e
  refine ⟨rfl, ?_, rfl⟩
  intro h
  simp [DefaultExecutor.consume, h]

/-- Witness for C6 at a concrete Machine and a poisoned executor. -/
theorem executor_consume_witness :
    (DefaultExecutor.new machine_w).consume = (some machine_w, ⟨none⟩)
    ∧ (⟨none⟩ : DefaultExecutor).consume = (none, ⟨none⟩) :=
  ⟨(executor_consume_spec machine_w ⟨none⟩).1,
   (executor_consume_spec machine_w ⟨none⟩).2.1 rfl⟩

theorem run_guest_base_eq : ∀ (body : List GuestStep) (st : StateTree) (gas : GasTracker),
    (run_guest st gas body).1.base = st.base := by
  intro body
  induction body with
  | nil => intro st gas; rfl
  | cons step rest ih =>
    intro st gas
    cases step with
    | set_actor a s => simp [run_guest, ih, StateTree.set_actor]
    | delete_actor a => simp [run_guest, ih, StateTree.delete_actor]
    | charge n =>
      simp only [run_guest]
      split
      · exact ih _ _
      · rfl
    | abort code => rfl

theorem run_guest_journal_suffix :
    ∀ (body : List GuestStep) (st : StateTree) (gas : GasTracker),
    ∃ w, (run_guest st gas body).1.journal = w ++ st.journal := by
  intro body
  induction body with
  | nil => intro st gas; exact ⟨[], rfl⟩
  | cons step rest ih =>
    intro st gas
    cases step with
    | set_actor a s =>
      obtain ⟨w, hw⟩ := ih (st.set_actor a s) gas
      refine ⟨w ++ [(a, some s)], ?_⟩
      simp only [run_guest]
      rw [hw]
      simp [StateTree.set_actor]
    | delete_actor a =>
      obtain ⟨w, hw⟩ := ih (st.delete_actor a) gas
      refine ⟨w ++ [(a, none)], ?_⟩
      simp only [run_guest]
      rw [hw]
      simp [StateTree.delete_actor]
    | charge n =>
      simp only [run_guest]
      split
      · exact ih _ _
      · exact ⟨[], rfl⟩
    | abort code => exact ⟨[], rfl⟩

theorem run_guest_gas : ∀ (body : List GuestStep) (st : StateTree) (gas : GasTracker),
    (run_guest st gas body).2.1.gas_counter ≤ gas.gas_counter
    ∧ (run_guest st gas body).2.1.gas_limit = gas.gas_limit := by
  intro body
  induction body with
  | nil => intro st gas; exact ⟨Nat.le_refl _, rfl⟩
  | cons step rest ih =>
    intro st gas
    cases step with
    | set_actor a s => exact ih _ _
    | delete_actor a => exact ih _ _
    | charge n =>
      simp only [run_guest]
      split
      · refine ⟨Nat.le_trans (ih st (gas.charge n).1).1 (charge_counter_le gas n), ?_⟩
        rw [(ih st (gas.charge n).1).2, charge_limit_eq]
      · exact ⟨charge_counter_le gas n, charge_limit_eq gas n⟩
    | abort code => exact ⟨Nat.le_refl _, rfl⟩

theorem run_guest_revert :
    ∀ (body : List GuestStep) (st : StateTree) (gas : GasTracker),
    (run_guest st gas body).1.revert_to st.snapshot = st := by
  intro body st gas
  obtain ⟨w, hw⟩ := run_guest_journal_suffix body st gas
  have hb := run_guest_base_eq body st gas
  unfold StateTree.revert_to StateTree.snapshot
  rw [hb, hw]
  simp [List.length_append, Nat.add_sub_cancel, List.drop_left]

/-- Claim C2: whenever a call aborts — explicit guest abort, out-of-gas, or
depth-exceeded — the State Tree returned by `call_send` equals the State
Tree at the snapshot taken at the call's entry (every mutation made during
the call is reverted), the gas already charged is preserved (gas used never
shrinks back and the limit is untouched), and the abort's exit code is what
the caller frame receives. -/
theorem call_send_abort_spec :
    ∀ (max_depth depth : Nat) (st st3 : StateTree) (gas gas3 : GasTracker)
      (body : List GuestStep) (st2 : StateTree) (gas2 : GasTracker) (code : Nat),
    (call_send max_depth depth st gas body = (st2, gas2, .abort code) →
      st2 = st ∧ gas.gas_used ≤ gas2.gas_used ∧ gas2.gas_limit = gas.gas_limit)
    ∧ (run_guest st gas body = (st3, gas3, .abort code) →
        ¬ max_depth < depth + 1 →
        call_send max_depth depth st gas body = (st, gas3, .abort code)) := by
  intro max_depth depth st st3 gas gas3 body st2 gas2 code
  constructor
  · intro h
    by_cases hd : max_depth < depth + 1
    · simp only [call_send, if_pos hd, Prod.mk.injEq] at h
      obtain ⟨h1, h2, _⟩ := h
      subst h1; subst h2
      exact ⟨rfl, Nat.le_refl _, rfl⟩
    · simp only [call_send, if_neg hd] at h
      rcases hr : (run_guest st gas body).2.2 with ret | c
      · rw [hr] at h
        simp at h
      · rw [hr] at h
        simp only [Prod.mk.injEq] at h
        obtain ⟨h1, h2, _⟩ := h
        have hrev := run_guest_revert body st gas
        have hg := run_guest_gas body st gas
        refine ⟨by rw [← h1, hrev], ?_, by rw [← h2, hg.2]⟩
        rw [← h2]
        unfold GasTracker.gas_used
        rw [hg.2]
        have := hg.1
        omega
  · intro hg hd
    have hrev := run_guest_revert body st gas
    rw [hg] at hrev
    simp only [call_send, if_neg hd, hg, hrev]

/-- Witness for C2: a concrete guest body that writes an actor, charges gas,
then aborts with code 42; the state tree comes back unchanged and the
charged gas is kept. -/
theorem call_send_abort_witness :
    st_w = st_w ∧ gas_w.gas_used ≤ (⟨5, 2⟩ : GasTracker).gas_used
    ∧ (⟨5, 2⟩ : GasTracker).gas_limit = gas_w.gas_limit :=
  (call_send_abort_spec 4096 0 st_w st_w gas_w ⟨5, 2⟩ body_w st_w ⟨5, 2⟩ 42).1
    (by decide)

theorem executor_run_unique :
    ∀ {m : Machine} {msgs : List (Message × Nat)} {rs1 : List Receipt} {c1 : Cid},
    ExecutorRun m msgs rs1 c1 →
    ∀ {rs2 : List Receipt} {c2 : Cid}, ExecutorRun m msgs rs2 c2 →
    rs1 = rs2 ∧ c1 = c2 := by
  intro m msgs rs1 c1 h1
  induction h1 with
  | nil m =>
    intro rs2 c2 h2
    cases h2
    exact ⟨rfl, rfl⟩
  | cons m msg rl m2 ret rest rs root hexec hrest ih =>
    intro rs2 c2 h2
    cases h2 with
    | cons _ _ _ m2b retb _ rsb rootb hexecb hrestb =>
      rw [hexec] at hexecb
      have hm : m2 = m2b := congrArg Prod.fst hexecb
      have hret : ret = retb := congrArg Prod.snd hexecb
      subst hm
      subst hret
      obtain ⟨ha, hb⟩ := ih hrestb
      exact ⟨by rw [ha], hb⟩

/-- Claim C1: two Machines independently constructed from the same inputs
(context and store), fed the same message sequence through the executor,
produce identical per-message receipts and an identical final state-root CID
after flush. -/
theorem executor_determinism :
    ∀ (ctx : MachineContext) (store : Store) (msgs : List (Message × Nat))
      (m1 m2 : Machine) (rs1 rs2 : List Receipt) (c1 c2 : Cid),
    machine_new ctx store = .ok m1 →
    machine_new ctx store = .ok m2 →
    ExecutorRun m1 msgs rs1 c1 →
    ExecutorRun m2 msgs rs2 c2 →
    rs1 = rs2 ∧ c1 = c2 := by
  intro ctx store msgs m1 m2 rs1 rs2 c1 c2 h1 h2 e1 e2
  rw [h1] at h2
  injection h2 with hm
  subst hm
  exact executor_run_unique e1 e2

/-- Witness for C1: two runs over the same freshly constructed Machine and a
one-message sequence agree on receipts and final root. -/
theorem executor_determinism_witness :
    [(execute_message machine_w msg_w .explicit 79).2.msg_receipt]
      = [(execute_message machine_w msg_w .explicit 79).2.msg_receipt]
    ∧ (execute_message machine_w msg_w .explicit 79).1.flush
      = (execute_message machine_w msg_w .explicit 79).1.flush :=
  executor_determinism ctx_w store_w [(msg_w, 79)] machine_w machine_w _ _ _ _
    rfl rfl
    (ExecutorRun.cons _ _ _ _ _ _ _ _ rfl (ExecutorRun.nil _))
    (ExecutorRun.cons _ _ _ _ _ _ _ _ rfl (ExecutorRun.nil _))

/-- Claim C5: the batch runner stops applying the remaining messages at the
first fatal error (an undeserializable message), reporting it; a message
whose execution merely yields a receipt — including rejection receipts for
per-message failures such as a nonce mismatch, which `execute_message`
returns as a normal `ApplyRet` with no state change rather than an error —
lets the batch continue with the next message (or stop only on an expected/
actual receipt mismatch, reported per message). -/
theorem batch_error_handling :
    ∀ (m : Machine) (expected : List Receipt) (raw : List Nat)
      (rest : List (List Nat)) (i : Nat) (msg : Message) (sender : ActorState)
      (rl : Nat) (e : MsgCheckErr),
    (unmarshal_cbor raw = none → run_loop m expected (raw :: rest) i = .fatal i)
    ∧ (unmarshal_cbor raw = some msg →
        check_msg_result (expected.getD i ⟨0, [], 0⟩)
          (execute_message m msg .explicit
            (raw_length raw.length msg.from_addr.protocol)).2 i = .ok () →
        run_loop m expected (raw :: rest) i =
          run_loop (execute_message m msg .explicit
            (raw_length raw.length msg.from_addr.protocol)).1 expected rest (i + 1))
    ∧ (unmarshal_cbor raw = some msg →
        check_msg_result (expected.getD i ⟨0, [], 0⟩)
          (execute_message m msg .explicit
            (raw_length raw.length msg.from_addr.protocol)).2 i = .error e →
        run_loop m expected (raw :: rest) i = .failed i)
    ∧ (m.state_tree.get_actor msg.from_addr.id = some sender →
        msg.sequence ≠ sender.sequence →
        execute_message m msg .explicit rl =
          (m, reject SYS_ERR_SENDER_STATE_INVALID)) := by
  intro m expected raw rest i msg sender rl e
  refine ⟨?_, ?_, ?_, ?_⟩
  · intro h
    simp [run_loop, h]
  · intro h hc
    simp only [run_loop, h]
    rw [hc]
  · intro h hc
    simp only [run_loop, h]
    rw [hc]
  · intro hs hseq
    simp [execute_message, hs, hseq]

/-- Witness for C5: a malformed raw message stops the batch as fatal; the
well-formed `raw_w` executes, its receipt matches, and the loop continues;
and a nonce-mismatching message yields a rejection receipt with the Machine
unchanged. -/
theorem batch_error_handling_witness :
    run_loop machine_w [⟨0, [], 41707⟩] ([] :: []) 0 = .fatal 0
    ∧ run_loop machine_w [⟨0, [], 41707⟩] [raw_w] 0 =
        run_loop (execute_message machine_w msg_w .explicit
          (raw_length raw_w.length msg_w.from_addr.protocol)).1
          [⟨0, [], 41707⟩] [] 1
    ∧ execute_message machine_w msg_w2 .explicit 79 =
        (machine_w, reject SYS_ERR_SENDER_STATE_INVALID) :=
  ⟨(batch_error_handling machine_w [⟨0, [], 41707⟩] [] [] 0 msg_w actor_w 79
      (.exit_code 0 0 0)).1 rfl,
   (batch_error_handling machine_w [⟨0, [], 41707⟩] raw_w [] 0 msg_w actor_w 79
      (.exit_code 0 0 0)).2.1 rfl (by rfl),
   (batch_error_handling machine_w [⟨0, [], 41707⟩] raw_w [] 0 msg_w2 actor_w 79
      (.exit_code 0 0 0)).2.2.2 (by rfl) (by decide)⟩
